import Mathlib

/-!
Shallow embedding of the notification scheduling engine of the
`life-reveal` application.

The embedded code lives in:
* `src/services/notifications/notificationTypes.ts` — the settings data
  model, the default settings and the `NotificationScheduler` class
  (quiet-hours evaluation, hourly / morning / evening / weekly-review
  scheduling, snooze, cancellation);
* `src/services/notifications/notificationService.ts` — the thin wrapper
  around the platform trigger registry (`scheduleNotification`,
  `cancelNotification`);
* `src/storage/localSettings.ts` — `getNotificationSettings`.

Modelling conventions:
* `HH:mm` time strings are represented already split into an
  hour/minute pair (`TimeOfDay`); the TypeScript code splits these
  strings with `split(':')` and `map(Number)` and the specification
  guarantees they are always well-formed 24-hour values.
* The impure read of the wall clock (`new Date()` inside
  `isQuietHours`) becomes an explicit `currentMinutes` argument
  (minutes since midnight), threaded through the scheduling pass as
  `nowMinutes`.
* The platform trigger registry (`expo-notifications`) is modelled as a
  list of registered entries inside `SchedState.osActive`; registration
  attempts are numbered by `SchedState.nextId`, and an oracle
  `ok : Nat -> Bool` says whether the attempt with a given number
  succeeds (a `false` models `scheduleNotificationAsync` throwing, which
  every call site catches and swallows).  The identifier handed back on
  success is the attempt number.
* Cancellation by identifier always succeeds in the model (the code
  wraps every cancel in try/catch and ignores failures); it removes the
  entries with that identifier from `osActive`.
* Permission checks are modelled as granted: every claim under scrutiny
  concerns behaviour after permissions are confirmed.
* All methods return `void` in TypeScript, so they are embedded as
  state transformers `SchedState -> SchedState`;
  `updateNotificationSchedule` is additionally given the
  `Unit × SchedState` form to make its (absent) return value explicit.
-/

namespace LifeReveal

/-- An `HH:mm` wall-clock value, kept as the hour/minute pair the code
obtains from `time.split(':').map(Number)`. -/
structure TimeOfDay where
  hour : Nat
  minute : Nat
deriving DecidableEq, Repr

/-- `hour * 60 + minute`, the normalisation both branches of
`isQuietHours` perform before comparing. -/
def TimeOfDay.toMinutes (t : TimeOfDay) : Nat :=
  t.hour * 60 + t.minute

/-- The `QuietHours` record of `notificationTypes.ts`. -/
structure QuietHours where
  enabled : Bool
  startTime : TimeOfDay
  endTime : TimeOfDay
deriving DecidableEq, Repr

/-- The `NotificationSettings` record of `notificationTypes.ts`,
fields in source order. -/
structure NotificationSettings where
  hourlyNotificationsEnabled : Bool
  quietHours : QuietHours
  morningLogEnabled : Bool
  morningLogTime : TimeOfDay
  eveningLogEnabled : Bool
  eveningLogTime : TimeOfDay
  weeklyReviewEnabled : Bool
  weeklyReviewDay : Nat
  weeklyReviewTime : TimeOfDay
  remindersEnabled : Bool
  allowSnooze : Bool
  snoozeDuration : Nat
deriving DecidableEq, Repr

/-- `DEFAULT_NOTIFICATION_SETTINGS` of `notificationTypes.ts`:
hourly on, quiet hours enabled 22:00-08:00, morning/evening off
(at 09:00 / 21:00), weekly review on Sunday (day 0) at 19:00,
reminders on, snooze allowed with 15-minute duration. -/
def DEFAULT_NOTIFICATION_SETTINGS : NotificationSettings :=
  ⟨true, ⟨true, ⟨22, 0⟩, ⟨8, 0⟩⟩,
   false, ⟨9, 0⟩,
   false, ⟨21, 0⟩,
   true, 0, ⟨19, 0⟩,
   true, true, 15⟩

/-- `NotificationScheduler.isQuietHours`.  The method reads
`new Date()`; that clock reading (in minutes since midnight) is the
explicit `currentMinutes` argument here.  Everything after the read is
the source's comparison logic verbatim. -/
def isQuietHours (currentMinutes : Nat) (quietHours : QuietHours) : Bool :=
  if !quietHours.enabled then false
  else
    let startMinutes := quietHours.startTime.toMinutes
    let endMinutes := quietHours.endTime.toMinutes
    if startMinutes > endMinutes then
      decide (currentMinutes ≥ startMinutes) || decide (currentMinutes < endMinutes)
    else
      decide (currentMinutes ≥ startMinutes) && decide (currentMinutes < endMinutes)

/-- The hour-selection logic of the `for (let hour = 0; hour < 24; ...)`
loop in `NotificationScheduler.scheduleHourlyNotifications`: an hour is
kept unless the guard skips it with `continue`.  Note the guard first
calls `isQuietHours(settings.quietHours)` — evaluated at the wall-clock
moment of the pass (`nowMinutes`), not at the candidate hour (the
`testDate` the loop builds for the candidate hour is never used) — and
only when that is true applies the per-hour skip, using only the hour
components (`parseInt(....split(':')[0])`) of the window bounds. -/
def hourlyHours (nowMinutes : Nat) (quietHours : QuietHours) : List Nat :=
  (List.range 24).filter (fun hour =>
    if isQuietHours nowMinutes quietHours then
      let quietStart := quietHours.startTime.hour
      let quietEnd := quietHours.endTime.hour
      if quietStart > quietEnd then
        !(decide (hour ≥ quietStart) || decide (hour < quietEnd))
      else
        !(decide (hour ≥ quietStart) && decide (hour < quietEnd))
    else true)

/-- The logical role of a registered notification (the spec's
`LogicalRole`): which source call site registered it. -/
inductive LogicalRole where
  | hourlySlot (hour : Nat)
  | morningLog
  | eveningLog
  | weeklyReview
  | snoozed
deriving DecidableEq, Repr

/-- The recurrence rule passed to the platform registry: the
`{hour, minute, repeats:true}` calendar trigger, the same with a
`weekday` list, or the one-shot `{seconds}` interval trigger used by
snooze. -/
inductive Trigger where
  | daily (hour minute : Nat)
  | weekly (days : List Nat) (hour minute : Nat)
  | oneShot (seconds : Nat)
deriving DecidableEq, Repr

/-- One trigger currently registered with the platform registry. -/
structure OsEntry where
  id : Nat
  role : LogicalRole
  trigger : Trigger
deriving DecidableEq, Repr

/-- The scheduler state: the two private fields of the
`NotificationScheduler` class (`scheduledNotificationIds`, a role-key to
external-id map, and `hourlyNotificationIds`), plus the modelled
platform registry (`osActive`) and the attempt counter that numbers
registration attempts and mints fresh external ids. -/
structure SchedState where
  scheduledNotificationIds : List (String × Nat)
  hourlyNotificationIds : List Nat
  nextId : Nat
  osActive : List OsEntry
deriving DecidableEq, Repr

/-- The scheduler's starting state: both private maps empty, no
triggers registered, attempt counter at zero. -/
def initialState : SchedState :=
  ⟨[], [], 0, []⟩

/-- A trigger registry in which every registration attempt succeeds. -/
def allOk : Nat → Bool := fun _ => true

/-- `Notifications.scheduleNotificationAsync`, modelled: attempt number
`s.nextId` is consumed; if the oracle grants it the entry is registered
and its id returned, otherwise the call "throws" and returns nothing.
Every call site wraps this in try/catch. -/
def registerTrigger (ok : Nat → Bool) (role : LogicalRole) (trig : Trigger)
    (s : SchedState) : Option Nat × SchedState :=
  if ok s.nextId then
    (some s.nextId,
     ⟨s.scheduledNotificationIds, s.hourlyNotificationIds, s.nextId + 1,
      ⟨s.nextId, role, trig⟩ :: s.osActive⟩)
  else
    (none,
     ⟨s.scheduledNotificationIds, s.hourlyNotificationIds, s.nextId + 1,
      s.osActive⟩)

/-- `Notifications.cancelScheduledNotificationAsync`, modelled: removes
the entries carrying the given external id. -/
def cancelExternal (id : Nat) (os : List OsEntry) : List OsEntry :=
  os.filter (fun e => e.id != id)

/-- JavaScript `Map.set`: overwrite any prior binding of the key. -/
def mapSet (k : String) (v : Nat) (m : List (String × Nat)) : List (String × Nat) :=
  (m.filter (fun p => p.1 != k)) ++ [(k, v)]

/-- `NotificationScheduler.cancelAllScheduled`: cancel every external id
held in `scheduledNotificationIds`, then clear that map.  It does not
touch `hourlyNotificationIds`. -/
def cancelAllScheduled (s : SchedState) : SchedState :=
  ⟨[], s.hourlyNotificationIds, s.nextId,
   s.scheduledNotificationIds.foldl (fun os p => cancelExternal p.2 os) s.osActive⟩

/-- `NotificationScheduler.cancelHourlyNotifications`: cancel every id
in `hourlyNotificationIds` (each cancel in try/catch), then clear the
list. -/
def cancelHourlyNotifications (s : SchedState) : SchedState :=
  ⟨s.scheduledNotificationIds, [], s.nextId,
   s.hourlyNotificationIds.foldl (fun os id => cancelExternal id os) s.osActive⟩

/-- `NotificationScheduler.scheduleHourlyNotification`: register a
repeating `{hour, minute:0}` calendar trigger; on success push the
returned id onto `hourlyNotificationIds`; on failure log and continue
(the catch block swallows the error). -/
def scheduleHourlyNotification (ok : Nat → Bool) (hour : Nat)
    (s : SchedState) : SchedState :=
  let r := registerTrigger ok (LogicalRole.hourlySlot hour) (Trigger.daily hour 0) s
  match r.1 with
  | some id =>
      ⟨r.2.scheduledNotificationIds, r.2.hourlyNotificationIds ++ [id],
       r.2.nextId, r.2.osActive⟩
  | none => r.2

/-- The sequence of per-hour registrations issued by the loop in
`scheduleHourlyNotifications` (the code collects the promises and
awaits them; each registry call is issued in loop order). -/
def scheduleHourlyList (ok : Nat → Bool) (hours : List Nat)
    (s : SchedState) : SchedState :=
  match hours with
  | [] => s
  | h :: rest => scheduleHourlyList ok rest (scheduleHourlyNotification ok h s)

/-- `NotificationScheduler.scheduleHourlyNotifications`: first cancel
the existing hourly generation, then return if hourly notifications are
disabled, else register one trigger per surviving hour. -/
def scheduleHourlyNotifications (ok : Nat → Bool) (cfg : NotificationSettings)
    (nowMinutes : Nat) (s : SchedState) : SchedState :=
  let s1 := cancelHourlyNotifications s
  if !cfg.hourlyNotificationsEnabled then s1
  else scheduleHourlyList ok (hourlyHours nowMinutes cfg.quietHours) s1

/-- `NotificationScheduler.scheduleMorningLog` via
`notificationService.scheduleNotification`: a daily trigger at the
configured time; on a non-null id, record it under the key
`'morning-log'`. -/
def scheduleMorningLog (ok : Nat → Bool) (time : TimeOfDay)
    (s : SchedState) : SchedState :=
  let r := registerTrigger ok LogicalRole.morningLog
    (Trigger.daily time.hour time.minute) s
  match r.1 with
  | some id =>
      ⟨mapSet ("morning-log") id r.2.scheduledNotificationIds,
       r.2.hourlyNotificationIds, r.2.nextId, r.2.osActive⟩
  | none => r.2

/-- `NotificationScheduler.scheduleEveningLog`, analogous, key
`'evening-log'`. -/
def scheduleEveningLog (ok : Nat → Bool) (time : TimeOfDay)
    (s : SchedState) : SchedState :=
  let r := registerTrigger ok LogicalRole.eveningLog
    (Trigger.daily time.hour time.minute) s
  match r.1 with
  | some id =>
      ⟨mapSet ("evening-log") id r.2.scheduledNotificationIds,
       r.2.hourlyNotificationIds, r.2.nextId, r.2.osActive⟩
  | none => r.2

/-- `NotificationScheduler.scheduleWeeklyReview`: the service adds the
`weekday` field because `config.days` is the non-empty `[day]`; key
`'weekly-review'`. -/
def scheduleWeeklyReview (ok : Nat → Bool) (day : Nat) (time : TimeOfDay)
    (s : SchedState) : SchedState :=
  let r := registerTrigger ok LogicalRole.weeklyReview
    (Trigger.weekly [day] time.hour time.minute) s
  match r.1 with
  | some id =>
      ⟨mapSet ("weekly-review") id r.2.scheduledNotificationIds,
       r.2.hourlyNotificationIds, r.2.nextId, r.2.osActive⟩
  | none => r.2

/-- `NotificationScheduler.scheduleAllNotifications`: cancel the ids in
`scheduledNotificationIds`, then either the hourly branch or the
morning/evening branch, then the weekly review. -/
def scheduleAllNotifications (ok : Nat → Bool) (cfg : NotificationSettings)
    (nowMinutes : Nat) (s : SchedState) : SchedState :=
  let s1 := cancelAllScheduled s
  let s2 :=
    if cfg.hourlyNotificationsEnabled then
      scheduleHourlyNotifications ok cfg nowMinutes s1
    else
      let sm := if cfg.morningLogEnabled then
          scheduleMorningLog ok cfg.morningLogTime s1 else s1
      if cfg.eveningLogEnabled then
        scheduleEveningLog ok cfg.eveningLogTime sm else sm
  if cfg.weeklyReviewEnabled then
    scheduleWeeklyReview ok cfg.weeklyReviewDay cfg.weeklyReviewTime s2
  else s2

/-- `NotificationScheduler.updateNotificationSchedule`: awaits
`scheduleAllNotifications` and returns `void` — the `Unit` component is
the method's entire return value. -/
def updateNotificationSchedule (ok : Nat → Bool) (cfg : NotificationSettings)
    (nowMinutes : Nat) (s : SchedState) : Unit × SchedState :=
  ((), scheduleAllNotifications ok cfg nowMinutes s)

/-- `NotificationScheduler.snoozeNotification`: one one-shot trigger
`minutes * 60` seconds from now; the returned id is not recorded
anywhere, and errors are swallowed. -/
def snoozeNotification (ok : Nat → Bool) (minutes : Nat)
    (s : SchedState) : SchedState :=
  (registerTrigger ok LogicalRole.snoozed
    (Trigger.oneShot (minutes * 60)) s).2

/-- The logical roles of the currently registered triggers (the spec's
`activeRoles()`). -/
def activeRoles (s : SchedState) : List LogicalRole :=
  s.osActive.map OsEntry.role

/-- `NotificationScheduler.getHourlyNotificationTitle`, string literals
copied byte-for-byte from the source (their leading characters are the
source file's own encoding of the emoji). -/
def getHourlyNotificationTitle (hour : Nat) : String :=
  if 5 ≤ hour ∧ hour < 12 then ("üåÖ Morning Check-in")
  else if 12 ≤ hour ∧ hour < 17 then ("‚òÄÔ∏è Afternoon Pulse")
  else if 17 ≤ hour ∧ hour < 21 then ("üåÜ Evening Reflection")
  else if 21 ≤ hour ∨ hour < 5 then ("üåô Night Review")
  else ("‚è∞ Hourly Check-in")

/-- The fixed `bodies` list of
`NotificationScheduler.getHourlyNotificationBody`. -/
def hourlyBodies : List String :=
  ["How are you feeling right now?",
   "Take a moment to check in with yourself",
   "Log this hour in your journey",
   "Quick reflection: How\x27s this hour going?",
   "Capture this moment in your life reveal"]

/-- `NotificationScheduler.getHourlyNotificationBody`:
`bodies[hour % bodies.length]`. -/
def getHourlyNotificationBody (hour : Nat) : String :=
  hourlyBodies.get ⟨hour % 5, Nat.mod_lt hour (by decide)⟩

/-- The outcome of `AsyncStorage.getItem`: a value (possibly absent) or
a thrown storage error. -/
inductive StorageRead where
  | ok (value : Option String)
  | error
deriving DecidableEq, Repr

/-- `getNotificationSettings` of `localSettings.ts`.  `parse` models
`JSON.parse` (`none` = it throws).  The stored string is parsed only
when JavaScript-truthy (non-empty); a storage error, an absent value,
an empty string or a parse error all land on the default settings —
the parse error because `JSON.parse` throws inside the same `try`. -/
def getNotificationSettings (read : StorageRead)
    (parse : String → Option NotificationSettings) : NotificationSettings :=
  match read with
  | StorageRead.error => DEFAULT_NOTIFICATION_SETTINGS
  | StorageRead.ok none => DEFAULT_NOTIFICATION_SETTINGS
  | StorageRead.ok (some str) =>
      if str = "" then DEFAULT_NOTIFICATION_SETTINGS
      else
        match parse str with
        | some v => v
        | none => DEFAULT_NOTIFICATION_SETTINGS

/-- The set of logical roles one pass of `scheduleAllNotifications`
attempts to register (the spec's `buildSchedule`), in attempt order. -/
def requestedRoles (cfg : NotificationSettings) (nowMinutes : Nat) : List LogicalRole :=
  (if cfg.hourlyNotificationsEnabled then
     (hourlyHours nowMinutes cfg.quietHours).map LogicalRole.hourlySlot
   else
     (if cfg.morningLogEnabled then [LogicalRole.morningLog] else []) ++
     (if cfg.eveningLogEnabled then [LogicalRole.eveningLog] else [])) ++
  (if cfg.weeklyReviewEnabled then [LogicalRole.weeklyReview] else [])

/-- The requested roles whose registration did not succeed in a pass
run from state `s` under registry behaviour `ok`. -/
def failedRoles (ok : Nat → Bool) (cfg : NotificationSettings)
    (nowMinutes : Nat) (s : SchedState) : List LogicalRole :=
  (requestedRoles cfg nowMinutes).filter
    (fun r => !((activeRoles (scheduleAllNotifications ok cfg nowMinutes s)).contains r))

/-- Specification helper: the registry entries created by a run of the
hourly registration loop over `hours` whose first attempt is numbered
`n`, keeping exactly the attempts the oracle grants. -/
def entriesOk (ok : Nat → Bool) : Nat → List Nat → List OsEntry
  | _, [] => []
  | n, h :: t =>
      (if ok n then [⟨n, LogicalRole.hourlySlot h, Trigger.daily h 0⟩] else []) ++
        entriesOk ok (n + 1) t

/-- Specification helper: the external ids handed back by those same
granted attempts. -/
def idsOk (ok : Nat → Bool) : Nat → List Nat → List Nat
  | _, [] => []
  | n, _ :: t => (if ok n then [n] else []) ++ idsOk ok (n + 1) t

theorem scheduleHourlyNotification_spec (ok : Nat → Bool) (h : Nat) (s : SchedState) :
    scheduleHourlyNotification ok h s =
      if ok s.nextId then
        ⟨s.scheduledNotificationIds, s.hourlyNotificationIds ++ [s.nextId], s.nextId + 1,
         ⟨s.nextId, LogicalRole.hourlySlot h, Trigger.daily h 0⟩ :: s.osActive⟩
      else
        ⟨s.scheduledNotificationIds, s.hourlyNotificationIds, s.nextId + 1, s.osActive⟩ := by
  by_cases hok : ok s.nextId = true <;>
    simp [scheduleHourlyNotification, registerTrigger, hok]

theorem scheduleHourlyList_spec (ok : Nat → Bool) (hours : List Nat) (s : SchedState) :
    scheduleHourlyList ok hours s =
      ⟨s.scheduledNotificationIds, s.hourlyNotificationIds ++ idsOk ok s.nextId hours,
       s.nextId + hours.length, (entriesOk ok s.nextId hours).reverse ++ s.osActive⟩ := by
  induction hours generalizing s with
  | nil => simp [scheduleHourlyList, entriesOk, idsOk]
  | cons h t ih =>
      rw [scheduleHourlyList, scheduleHourlyNotification_spec]
      by_cases hok : ok s.nextId = true
      · rw [if_pos hok, ih]
        simp [entriesOk, idsOk, hok, List.append_assoc]
        omega
      · rw [if_neg hok, ih]
        have hok' : ok s.nextId = false := by revert hok; cases ok s.nextId <;> simp
        simp [entriesOk, idsOk, hok']
        omega

theorem idsOk_allOk (n : Nat) (hours : List Nat) :
    idsOk allOk n hours = List.range' n hours.length := by
  induction hours generalizing n with
  | nil => simp [idsOk]
  | cons h t ih => simp [idsOk, allOk, List.range'_succ, ih]

theorem entriesOk_allOk_map_role (n : Nat) (hours : List Nat) :
    (entriesOk allOk n hours).map OsEntry.role = hours.map LogicalRole.hourlySlot := by
  induction hours generalizing n with
  | nil => simp [entriesOk]
  | cons h t ih => simp [entriesOk, allOk, ih]

theorem entriesOk_allOk_map_id (n : Nat) (hours : List Nat) :
    (entriesOk allOk n hours).map OsEntry.id = List.range' n hours.length := by
  induction hours generalizing n with
  | nil => simp [entriesOk]
  | cons h t ih => simp [entriesOk, allOk, List.range'_succ, ih]

theorem entriesOk_id_bounds (ok : Nat → Bool) (n : Nat) (hours : List Nat) :
    ∀ e ∈ entriesOk ok n hours, n ≤ e.id ∧ e.id < n + hours.length := by
  induction hours generalizing n with
  | nil => simp [entriesOk]
  | cons h t ih =>
      intro e he
      simp only [entriesOk, List.mem_append] at he
      rcases he with h1 | h2
      · rcases Bool.eq_false_or_eq_true (ok n) with hok | hok <;>
          simp [hok] at h1
        rcases h1 with rfl
        simp only [List.length_cons]
        omega
      · have := ih (n + 1) e h2
        simp only [List.length_cons]
        omega

theorem entriesOk_role_slot (ok : Nat → Bool) (n : Nat) (hours : List Nat) :
    ∀ e ∈ entriesOk ok n hours, ∃ h ∈ hours, e.role = LogicalRole.hourlySlot h := by
  induction hours generalizing n with
  | nil => simp [entriesOk]
  | cons h t ih =>
      intro e he
      simp only [entriesOk, List.mem_append] at he
      rcases he with h1 | h2
      · rcases Bool.eq_false_or_eq_true (ok n) with hok | hok <;>
          simp [hok] at h1
        rcases h1 with rfl
        exact ⟨h, by simp, rfl⟩
      · rcases ih (n + 1) e h2 with ⟨h', hmem, hrole⟩
        exact ⟨h', by simp [hmem], hrole⟩

theorem scheduleMorningLog_spec (ok : Nat → Bool) (time : TimeOfDay) (s : SchedState) :
    scheduleMorningLog ok time s =
      if ok s.nextId then
        ⟨mapSet ("morning-log") s.nextId s.scheduledNotificationIds,
         s.hourlyNotificationIds, s.nextId + 1,
         ⟨s.nextId, LogicalRole.morningLog, Trigger.daily time.hour time.minute⟩ :: s.osActive⟩
      else
        ⟨s.scheduledNotificationIds, s.hourlyNotificationIds, s.nextId + 1, s.osActive⟩ := by
  by_cases hok : ok s.nextId = true <;> simp [scheduleMorningLog, registerTrigger, hok]

theorem scheduleEveningLog_spec (ok : Nat → Bool) (time : TimeOfDay) (s : SchedState) :
    scheduleEveningLog ok time s =
      if ok s.nextId then
        ⟨mapSet ("evening-log") s.nextId s.scheduledNotificationIds,
         s.hourlyNotificationIds, s.nextId + 1,
         ⟨s.nextId, LogicalRole.eveningLog, Trigger.daily time.hour time.minute⟩ :: s.osActive⟩
      else
        ⟨s.scheduledNotificationIds, s.hourlyNotificationIds, s.nextId + 1, s.osActive⟩ := by
  by_cases hok : ok s.nextId = true <;> simp [scheduleEveningLog, registerTrigger, hok]

theorem scheduleWeeklyReview_spec (ok : Nat → Bool) (day : Nat) (time : TimeOfDay)
    (s : SchedState) :
    scheduleWeeklyReview ok day time s =
      if ok s.nextId then
        ⟨mapSet ("weekly-review") s.nextId s.scheduledNotificationIds,
         s.hourlyNotificationIds, s.nextId + 1,
         ⟨s.nextId, LogicalRole.weeklyReview,
          Trigger.weekly [day] time.hour time.minute⟩ :: s.osActive⟩
      else
        ⟨s.scheduledNotificationIds, s.hourlyNotificationIds, s.nextId + 1, s.osActive⟩ := by
  by_cases hok : ok s.nextId = true <;> simp [scheduleWeeklyReview, registerTrigger, hok]

theorem scheduleAll_hourly_from_init (ok : Nat → Bool) (cfg : NotificationSettings)
    (nowMinutes : Nat) (hH : cfg.hourlyNotificationsEnabled = true) :
    scheduleAllNotifications ok cfg nowMinutes initialState =
      (if cfg.weeklyReviewEnabled then
        scheduleWeeklyReview ok cfg.weeklyReviewDay cfg.weeklyReviewTime
          ⟨[], idsOk ok 0 (hourlyHours nowMinutes cfg.quietHours),
           (hourlyHours nowMinutes cfg.quietHours).length,
           (entriesOk ok 0 (hourlyHours nowMinutes cfg.quietHours)).reverse⟩
      else
        ⟨[], idsOk ok 0 (hourlyHours nowMinutes cfg.quietHours),
         (hourlyHours nowMinutes cfg.quietHours).length,
         (entriesOk ok 0 (hourlyHours nowMinutes cfg.quietHours)).reverse⟩) := by
  have h1 : cancelAllScheduled initialState = initialState := rfl
  have h2 : cancelHourlyNotifications initialState = initialState := rfl
  simp only [scheduleAllNotifications, h1, scheduleHourlyNotifications, h2, hH,
    Bool.not_true, Bool.false_eq_true, if_false, if_true, scheduleHourlyList_spec]
  simp [initialState]

theorem nodup_get_not_mem_eraseIdx (l : List Nat) (hl : l.Nodup) (k : Nat)
    (hk : k < l.length) : l.get ⟨k, hk⟩ ∉ l.eraseIdx k := by
  induction l generalizing k with
  | nil => simp at hk
  | cons a t ih =>
      rcases List.nodup_cons.mp hl with ⟨ha, ht⟩
      cases k with
      | zero => simpa using ha
      | succ k =>
          intro hmem
          rcases List.mem_cons.mp (by simpa using hmem) with h1 | h2
          · exact ha (h1 ▸ (t.get_mem _ _))
          · exact ih ht k (by simpa using hk) h2

theorem foldl_cancelExternal (ids : List Nat) (os : List OsEntry) :
    ids.foldl (fun acc id => cancelExternal id acc) os =
      os.filter (fun e => !(ids.contains e.id)) := by
  induction ids generalizing os with
  | nil => simp
  | cons i t ih =>
      rw [List.foldl_cons, ih]
      rw [cancelExternal, List.filter_filter]
      refine List.filter_congr ?_
      intro e _
      by_cases h1 : e.id = i <;> by_cases h2 : e.id ∈ t <;>
        simp [List.contains_cons, h1, h2]

theorem cancelExternal_eq_self (id : Nat) (os : List OsEntry)
    (h : ∀ e ∈ os, e.id ≠ id) : cancelExternal id os = os :=
  List.filter_eq_self.mpr (fun e he => by simpa using h e he)

theorem cancelAllScheduled_spec (s : SchedState) :
    cancelAllScheduled s =
      ⟨[], s.hourlyNotificationIds, s.nextId,
       s.osActive.filter
         (fun e => !((s.scheduledNotificationIds.map Prod.snd).contains e.id))⟩ := by
  have hfold : s.scheduledNotificationIds.foldl (fun os p => cancelExternal p.2 os)
        s.osActive =
      (s.scheduledNotificationIds.map Prod.snd).foldl
        (fun os id => cancelExternal id os) s.osActive := by
    rw [List.foldl_map]
  rw [cancelAllScheduled]
  rw [hfold, foldl_cancelExternal]

theorem entriesOk_map_role_of_ok (ok : Nat → Bool) (n : Nat) (hours : List Nat)
    (hok : ∀ m, n ≤ m → ok m = true) :
    (entriesOk ok n hours).map OsEntry.role = hours.map LogicalRole.hourlySlot := by
  induction hours generalizing n with
  | nil => simp [entriesOk]
  | cons h t ih =>
      simp [entriesOk, hok n le_rfl, ih (n + 1) (fun m hm => hok m (by omega))]

theorem entriesOk_single_failure (hours : List Nat) (a k : Nat)
    (hk : k < hours.length) :
    (entriesOk (fun i => !(i == a + k)) a hours).map OsEntry.role =
      (hours.eraseIdx k).map LogicalRole.hourlySlot := by
  induction hours generalizing a k with
  | nil => simp at hk
  | cons h t ih =>
      cases k with
      | zero =>
          have hfail : (!(a == a + 0)) = false := by simp
          simp only [entriesOk, hfail, Bool.false_eq_true, if_false, List.nil_append,
            List.eraseIdx_cons_zero]
          exact entriesOk_map_role_of_ok _ (a + 1) t
            (fun m hm => by simp; omega)
      | succ k =>
          have hpass : (!(a == a + (k + 1))) = true := by simp
          have harith : a + 1 + k = a + (k + 1) := by omega
          have := ih (a + 1) k (by simpa using hk)
          rw [harith] at this
          simp only [entriesOk, hpass, if_true, List.singleton_append, List.map_cons,
            List.eraseIdx_cons_succ, this]

theorem scheduleMorningLog_allOk (time : TimeOfDay) (s : SchedState) :
    scheduleMorningLog allOk time s =
      ⟨mapSet ("morning-log") s.nextId s.scheduledNotificationIds,
       s.hourlyNotificationIds, s.nextId + 1,
       ⟨s.nextId, LogicalRole.morningLog,
        Trigger.daily time.hour time.minute⟩ :: s.osActive⟩ := by
  simp [scheduleMorningLog, registerTrigger, allOk]

theorem scheduleEveningLog_allOk (time : TimeOfDay) (s : SchedState) :
    scheduleEveningLog allOk time s =
      ⟨mapSet ("evening-log") s.nextId s.scheduledNotificationIds,
       s.hourlyNotificationIds, s.nextId + 1,
       ⟨s.nextId, LogicalRole.eveningLog,
        Trigger.daily time.hour time.minute⟩ :: s.osActive⟩ := by
  simp [scheduleEveningLog, registerTrigger, allOk]

theorem scheduleWeeklyReview_allOk (day : Nat) (time : TimeOfDay) (s : SchedState) :
    scheduleWeeklyReview allOk day time s =
      ⟨mapSet ("weekly-review") s.nextId s.scheduledNotificationIds,
       s.hourlyNotificationIds, s.nextId + 1,
       ⟨s.nextId, LogicalRole.weeklyReview,
        Trigger.weekly [day] time.hour time.minute⟩ :: s.osActive⟩ := by
  simp [scheduleWeeklyReview, registerTrigger, allOk]

/-- C6: hourly and morning/evening scheduling are exclusive
alternatives with hourly taking priority — whenever
`hourlyNotificationsEnabled` is true, a pass from the scheduler's
start state registers no morning or evening notification under any
registry behaviour — and the legacy scenario (hourly off, morning
09:00, evening 21:00, weekly review Sunday 19:00) registers exactly
the three entries `morningLog` daily 09:00, `eveningLog` daily 21:00
and `weeklyReview` weekly on day 0 at 19:00. -/
theorem C6_hourly_priority_and_legacy_scenario :
    (∀ (cfg : NotificationSettings) (nowMinutes : Nat) (ok : Nat → Bool),
        cfg.hourlyNotificationsEnabled = true →
        LogicalRole.morningLog ∉
          activeRoles (scheduleAllNotifications ok cfg nowMinutes initialState) ∧
        LogicalRole.eveningLog ∉
          activeRoles (scheduleAllNotifications ok cfg nowMinutes initialState)) ∧
    (scheduleAllNotifications allOk
        ⟨false, ⟨true, ⟨22, 0⟩, ⟨8, 0⟩⟩, true, ⟨9, 0⟩, true, ⟨21, 0⟩,
         true, 0, ⟨19, 0⟩, true, true, 15⟩ 600 initialState).osActive =
      [⟨2, LogicalRole.weeklyReview, Trigger.weekly [0] 19 0⟩,
       ⟨1, LogicalRole.eveningLog, Trigger.daily 21 0⟩,
       ⟨0, LogicalRole.morningLog, Trigger.daily 9 0⟩] := by
  constructor
  · intro cfg nowMinutes ok hH
    have key : ∀ r ∈ activeRoles (scheduleAllNotifications ok cfg nowMinutes initialState),
        r = LogicalRole.weeklyReview ∨ ∃ hh, r = LogicalRole.hourlySlot hh := by
      intro r hr
      have slotOfBase : r ∈ ((entriesOk ok 0
            (hourlyHours nowMinutes cfg.quietHours)).reverse.map OsEntry.role) →
          ∃ hh, r = LogicalRole.hourlySlot hh := by
        intro hmem
        rcases List.mem_map.mp hmem with ⟨e, he, rfl⟩
        rcases entriesOk_role_slot ok 0 _ e (List.mem_reverse.mp he) with ⟨hh, _, hrole⟩
        exact ⟨hh, hrole⟩
      rw [scheduleAll_hourly_from_init ok cfg nowMinutes hH] at hr
      by_cases hw : cfg.weeklyReviewEnabled = true
      · rw [if_pos hw, scheduleWeeklyReview_spec] at hr
        by_cases hk : ok (hourlyHours nowMinutes cfg.quietHours).length = true
        · rw [if_pos hk] at hr
          simp only [activeRoles, List.map_cons, List.mem_cons] at hr
          rcases hr with rfl | hr
          · exact Or.inl rfl
          · exact Or.inr (slotOfBase hr)
        · rw [if_neg hk] at hr
          exact Or.inr (slotOfBase hr)
      · rw [if_neg hw] at hr
        exact Or.inr (slotOfBase hr)
    constructor <;> intro hmem <;>
      rcases key _ hmem with h1 | ⟨hh, h1⟩ <;> simp at h1
  · decide

/-- Witness for C6: with the default settings (hourly on) no morning
or evening notification is registered. -/
theorem C6_hourly_priority_witness :
    LogicalRole.morningLog ∉
      activeRoles (scheduleAllNotifications allOk DEFAULT_NOTIFICATION_SETTINGS
        1380 initialState) ∧
    LogicalRole.eveningLog ∉
      activeRoles (scheduleAllNotifications allOk DEFAULT_NOTIFICATION_SETTINGS
        1380 initialState) :=
  C6_hourly_priority_and_legacy_scenario.1 DEFAULT_NOTIFICATION_SETTINGS 1380 allOk rfl

/-- C7: a single registration failure neither aborts the pass nor
surfaces as an exception (the embedding is a total function): with
hourly on and weekly review off, if exactly the `k`-th hourly
registration attempt fails, the active set afterwards is exactly the
other `n - 1` requested slots — in particular the failing slot's role
is absent and is not retried within the pass. -/
theorem C7_single_failure_isolated (cfg : NotificationSettings)
    (nowMinutes k : Nat) (hH : cfg.hourlyNotificationsEnabled = true)
    (hW : cfg.weeklyReviewEnabled = false)
    (hk : k < (hourlyHours nowMinutes cfg.quietHours).length) :
    activeRoles (scheduleAllNotifications (fun i => !(i == k)) cfg nowMinutes
        initialState) =
      (((hourlyHours nowMinutes cfg.quietHours).eraseIdx k).map
        LogicalRole.hourlySlot).reverse ∧
    (activeRoles (scheduleAllNotifications (fun i => !(i == k)) cfg nowMinutes
        initialState)).length =
      (hourlyHours nowMinutes cfg.quietHours).length - 1 ∧
    LogicalRole.hourlySlot ((hourlyHours nowMinutes cfg.quietHours).get ⟨k, hk⟩) ∉
      activeRoles (scheduleAllNotifications (fun i => !(i == k)) cfg nowMinutes
        initialState) := by
  have hmain : activeRoles (scheduleAllNotifications (fun i => !(i == k)) cfg
        nowMinutes initialState) =
      (((hourlyHours nowMinutes cfg.quietHours).eraseIdx k).map
        LogicalRole.hourlySlot).reverse := by
    rw [scheduleAll_hourly_from_init _ cfg nowMinutes hH]
    rw [if_neg (by simp [hW])]
    simp only [activeRoles]
    rw [List.map_reverse]
    have := entriesOk_single_failure (hourlyHours nowMinutes cfg.quietHours) 0 k hk
    simp only [Nat.zero_add] at this
    rw [this]
  have hnodup : (hourlyHours nowMinutes cfg.quietHours).Nodup := by
    unfold hourlyHours
    exact (List.nodup_range 24).filter _
  refine ⟨hmain, ?_, ?_⟩
  · rw [hmain]
    simp [List.length_eraseIdx_of_lt hk]
  · rw [hmain]
    intro hmem
    rw [List.mem_reverse] at hmem
    rcases List.mem_map.mp hmem with ⟨x, hx, hEq⟩
    simp only [LogicalRole.hourlySlot.injEq] at hEq
    exact nodup_get_not_mem_eraseIdx _ hnodup k hk (hEq ▸ hx)

/-- Witness for C7: quiet-window pass at 23:00 with weekly review off;
the fourth attempt (k = 3, hour 11) fails, the other 13 slots are
registered and hour 11 is absent. -/
theorem C7_single_failure_isolated_witness :
    activeRoles (scheduleAllNotifications (fun i => !(i == 3))
        ⟨true, ⟨true, ⟨22, 0⟩, ⟨8, 0⟩⟩, false, ⟨9, 0⟩, false, ⟨21, 0⟩,
         false, 0, ⟨19, 0⟩, true, true, 15⟩ 1380 initialState) =
      (((hourlyHours 1380 ⟨true, ⟨22, 0⟩, ⟨8, 0⟩⟩).eraseIdx 3).map
        LogicalRole.hourlySlot).reverse ∧
    (activeRoles (scheduleAllNotifications (fun i => !(i == 3))
        ⟨true, ⟨true, ⟨22, 0⟩, ⟨8, 0⟩⟩, false, ⟨9, 0⟩, false, ⟨21, 0⟩,
         false, 0, ⟨19, 0⟩, true, true, 15⟩ 1380 initialState)).length =
      (hourlyHours 1380 ⟨true, ⟨22, 0⟩, ⟨8, 0⟩⟩).length - 1 ∧
    LogicalRole.hourlySlot ((hourlyHours 1380 ⟨true, ⟨22, 0⟩, ⟨8, 0⟩⟩).get
        ⟨3, by decide⟩) ∉
      activeRoles (scheduleAllNotifications (fun i => !(i == 3))
        ⟨true, ⟨true, ⟨22, 0⟩, ⟨8, 0⟩⟩, false, ⟨9, 0⟩, false, ⟨21, 0⟩,
         false, 0, ⟨19, 0⟩, true, true, 15⟩ 1380 initialState) :=
  C7_single_failure_isolated
    ⟨true, ⟨true, ⟨22, 0⟩, ⟨8, 0⟩⟩, false, ⟨9, 0⟩, false, ⟨21, 0⟩,
     false, 0, ⟨19, 0⟩, true, true, 15⟩ 1380 3 rfl rfl (by decide)

/-- C1: the time-window evaluator is a pure, total function of the
minute-of-day it compares and the quiet-hours window: disabled windows
never match; for `start ≤ end` it matches exactly the half-open
interval `[start, end)`; for a midnight-spanning window
(`start > end`) it matches exactly `candidate ≥ start ∨ candidate <
end`.  In the embedding the wall-clock read is the explicit first
argument, so the result depends on nothing but the two arguments. -/
theorem C1_quiet_hours_evaluator (c : Nat) (qh : QuietHours) (hc : c < 1440) :
    (qh.enabled = false → isQuietHours c qh = false) ∧
    (qh.enabled = true → qh.startTime.toMinutes ≤ qh.endTime.toMinutes →
      (isQuietHours c qh = true ↔
        qh.startTime.toMinutes ≤ c ∧ c < qh.endTime.toMinutes)) ∧
    (qh.enabled = true → qh.endTime.toMinutes < qh.startTime.toMinutes →
      (isQuietHours c qh = true ↔
        qh.startTime.toMinutes ≤ c ∨ c < qh.endTime.toMinutes)) := by
  rcases qh with ⟨en, st, et⟩
  cases en with
  | false =>
      exact ⟨fun _ => by simp [isQuietHours], fun h => by simp at h,
        fun h => by simp at h⟩
  | true =>
      refine ⟨fun h => by simp at h, fun _ hle => ?_, fun _ hgt => ?_⟩
      · have hx : ¬(TimeOfDay.toMinutes et < TimeOfDay.toMinutes st) :=
          Nat.not_lt.mpr hle
        simp [isQuietHours, hx, ge_iff_le]
      · simp [isQuietHours, hgt, ge_iff_le]

/-- Witness for C1 at the default 22:00-08:00 window and candidate
minute 600 (10:00). -/
theorem C1_quiet_hours_evaluator_witness :
    ((⟨true, ⟨22, 0⟩, ⟨8, 0⟩⟩ : QuietHours).enabled = false →
      isQuietHours 600 ⟨true, ⟨22, 0⟩, ⟨8, 0⟩⟩ = false) ∧
    ((⟨true, ⟨22, 0⟩, ⟨8, 0⟩⟩ : QuietHours).enabled = true →
      (⟨22, 0⟩ : TimeOfDay).toMinutes ≤ (⟨8, 0⟩ : TimeOfDay).toMinutes →
      (isQuietHours 600 ⟨true, ⟨22, 0⟩, ⟨8, 0⟩⟩ = true ↔
        (⟨22, 0⟩ : TimeOfDay).toMinutes ≤ 600 ∧
          600 < (⟨8, 0⟩ : TimeOfDay).toMinutes)) ∧
    ((⟨true, ⟨22, 0⟩, ⟨8, 0⟩⟩ : QuietHours).enabled = true →
      (⟨8, 0⟩ : TimeOfDay).toMinutes < (⟨22, 0⟩ : TimeOfDay).toMinutes →
      (isQuietHours 600 ⟨true, ⟨22, 0⟩, ⟨8, 0⟩⟩ = true ↔
        (⟨22, 0⟩ : TimeOfDay).toMinutes ≤ 600 ∨
          600 < (⟨8, 0⟩ : TimeOfDay).toMinutes)) :=
  C1_quiet_hours_evaluator 600 ⟨true, ⟨22, 0⟩, ⟨8, 0⟩⟩ (by decide)

/-- C2 (code bug): with hourly enabled, quiet hours 22:00-08:00 and
weekly review off, the number of scheduled hourly slots is NOT 14
regardless of wall-clock time.  The per-hour quiet suppression only
runs when `isQuietHours` — evaluated at the moment of the pass, the
loop's per-hour `testDate` being dead code — is true.  A pass at 12:00
(minute 720) registers all 24 hours; only a pass inside the quiet
window, e.g. at 23:00 (minute 1380), yields the 14 hours 8..21 the
spec describes. -/
theorem C2_quiet_skip_depends_on_wall_clock :
    (activeRoles (scheduleAllNotifications allOk
        ⟨true, ⟨true, ⟨22, 0⟩, ⟨8, 0⟩⟩, false, ⟨9, 0⟩, false, ⟨21, 0⟩,
         false, 0, ⟨19, 0⟩, true, true, 15⟩ 720 initialState)).length = 24 ∧
    activeRoles (scheduleAllNotifications allOk
        ⟨true, ⟨true, ⟨22, 0⟩, ⟨8, 0⟩⟩, false, ⟨9, 0⟩, false, ⟨21, 0⟩,
         false, 0, ⟨19, 0⟩, true, true, 15⟩ 1380 initialState) =
      [LogicalRole.hourlySlot 21, LogicalRole.hourlySlot 20,
       LogicalRole.hourlySlot 19, LogicalRole.hourlySlot 18,
       LogicalRole.hourlySlot 17, LogicalRole.hourlySlot 16,
       LogicalRole.hourlySlot 15, LogicalRole.hourlySlot 14,
       LogicalRole.hourlySlot 13, LogicalRole.hourlySlot 12,
       LogicalRole.hourlySlot 11, LogicalRole.hourlySlot 10,
       LogicalRole.hourlySlot 9, LogicalRole.hourlySlot 8] := by
  constructor <;> decide

/-- C3 (code bug): the registry does NOT hold at most one generation.
After a pass with the default settings (hourly on) run at 23:00, a
second pass with hourly disabled and the morning log enabled — in
which every cancel call succeeds — leaves the first generation's
hourly trigger (external id 0, hour 8) registered:
`cancelAllScheduled` only iterates `scheduledNotificationIds` and the
hourly ids are only cancelled inside `scheduleHourlyNotifications`,
which the hourly-off branch never calls. -/
theorem C3_stale_hourly_generation_survives :
    (⟨0, LogicalRole.hourlySlot 8, Trigger.daily 8 0⟩ : OsEntry) ∈
      (scheduleAllNotifications allOk
        ⟨false, ⟨true, ⟨22, 0⟩, ⟨8, 0⟩⟩, true, ⟨9, 0⟩, false, ⟨21, 0⟩,
         true, 0, ⟨19, 0⟩, true, true, 15⟩ 600
        (scheduleAllNotifications allOk DEFAULT_NOTIFICATION_SETTINGS 1380
          initialState)).osActive := by
  decide

/-- C5 counterexample: the claim that the caller can determine the set
of failed roles from the return value of the scheduling pass is false:
two registry behaviours with different failed-role sets (none failed
vs. the hour-8 slot failed) produce identical return values, because
the method returns `void`. -/
theorem C5_return_value_hides_failures :
    (updateNotificationSchedule allOk
        ⟨true, ⟨true, ⟨22, 0⟩, ⟨8, 0⟩⟩, false, ⟨9, 0⟩, false, ⟨21, 0⟩,
         false, 0, ⟨19, 0⟩, true, true, 15⟩ 1380 initialState).1 =
      (updateNotificationSchedule (fun i => !(i == 0))
        ⟨true, ⟨true, ⟨22, 0⟩, ⟨8, 0⟩⟩, false, ⟨9, 0⟩, false, ⟨21, 0⟩,
         false, 0, ⟨19, 0⟩, true, true, 15⟩ 1380 initialState).1 ∧
    failedRoles allOk
        ⟨true, ⟨true, ⟨22, 0⟩, ⟨8, 0⟩⟩, false, ⟨9, 0⟩, false, ⟨21, 0⟩,
         false, 0, ⟨19, 0⟩, true, true, 15⟩ 1380 initialState ≠
      failedRoles (fun i => !(i == 0))
        ⟨true, ⟨true, ⟨22, 0⟩, ⟨8, 0⟩⟩, false, ⟨9, 0⟩, false, ⟨21, 0⟩,
         false, 0, ⟨19, 0⟩, true, true, 15⟩ 1380 initialState :=
  ⟨rfl, by decide⟩

/-- C5 amended: `updateNotificationSchedule` returns `void` — the same
value whatever the settings, the registry behaviour or the prior state
— so failed registrations are not exposed through its result; the pass
acts only on the scheduler state (it simply awaits
`scheduleAllNotifications`), where a failed role is absent from the
registered set. -/
theorem C5_void_return_and_state_only_effect (ok ok2 : Nat → Bool)
    (cfg cfg2 : NotificationSettings) (now now2 : Nat) (s s2 : SchedState) :
    (updateNotificationSchedule ok cfg now s).1 =
      (updateNotificationSchedule ok2 cfg2 now2 s2).1 ∧
    (updateNotificationSchedule ok cfg now s).2 =
      scheduleAllNotifications ok cfg now s :=
  ⟨rfl, rfl⟩

/-- C8: `snoozeNotification` leaves both private id maps untouched and
every already-registered trigger in place; when the registration
attempt succeeds it adds exactly one one-shot trigger with role
`snoozed` firing `minutes * 60` seconds from the call (and nothing at
all when the attempt fails); two consecutive snoozes coexist as two
separate entries — no deduplication. -/
theorem C8_snooze_frame_effect (minutes : Nat) (ok : Nat → Bool) (s : SchedState) :
    (snoozeNotification ok minutes s).scheduledNotificationIds =
      s.scheduledNotificationIds ∧
    (snoozeNotification ok minutes s).hourlyNotificationIds =
      s.hourlyNotificationIds ∧
    (ok s.nextId = true →
      (snoozeNotification ok minutes s).osActive =
        ⟨s.nextId, LogicalRole.snoozed, Trigger.oneShot (minutes * 60)⟩ ::
          s.osActive) ∧
    (ok s.nextId = false →
      (snoozeNotification ok minutes s).osActive = s.osActive) ∧
    (snoozeNotification allOk minutes (snoozeNotification allOk minutes s)).osActive =
      ⟨s.nextId + 1, LogicalRole.snoozed, Trigger.oneShot (minutes * 60)⟩ ::
        ⟨s.nextId, LogicalRole.snoozed, Trigger.oneShot (minutes * 60)⟩ ::
          s.osActive := by
  refine ⟨?_, ?_, fun h => ?_, fun h => ?_, ?_⟩
  · by_cases h : ok s.nextId = true <;> simp [snoozeNotification, registerTrigger, h]
  · by_cases h : ok s.nextId = true <;> simp [snoozeNotification, registerTrigger, h]
  · simp [snoozeNotification, registerTrigger, h]
  · simp [snoozeNotification, registerTrigger, h]
  · simp [snoozeNotification, registerTrigger, allOk]

/-- Witness for C8: a successful `snooze(15)` from the initial state
registers exactly the single 900-second one-shot snoozed entry. -/
theorem C8_snooze_frame_effect_witness :
    (snoozeNotification allOk 15 initialState).osActive =
      [⟨0, LogicalRole.snoozed, Trigger.oneShot 900⟩] :=
  (C8_snooze_frame_effect 15 allOk initialState).2.2.1 rfl

/-- C10: loading notification settings is total: a successful read of a
stored (truthy) value returns whatever the parser produces for it, and
every other outcome — storage error, nothing stored, empty string, or
a parse failure (a thrown `JSON.parse` is caught by the same handler)
— returns the fixed defaults: hourly on, quiet hours enabled
22:00-08:00, weekly review Sunday 19:00, snooze allowed at 15
minutes. -/
theorem C10_settings_load_total_with_defaults (read : StorageRead)
    (parse : String → Option NotificationSettings) :
    (read = StorageRead.error →
      getNotificationSettings read parse = DEFAULT_NOTIFICATION_SETTINGS) ∧
    (read = StorageRead.ok none →
      getNotificationSettings read parse = DEFAULT_NOTIFICATION_SETTINGS) ∧
    (∀ str v, read = StorageRead.ok (some str) → str ≠ "" → parse str = some v →
      getNotificationSettings read parse = v) ∧
    (∀ str, read = StorageRead.ok (some str) → parse str = none →
      getNotificationSettings read parse = DEFAULT_NOTIFICATION_SETTINGS) ∧
    getNotificationSettings (StorageRead.ok (some (""))) parse =
      DEFAULT_NOTIFICATION_SETTINGS ∧
    DEFAULT_NOTIFICATION_SETTINGS =
      ⟨true, ⟨true, ⟨22, 0⟩, ⟨8, 0⟩⟩, false, ⟨9, 0⟩, false, ⟨21, 0⟩,
       true, 0, ⟨19, 0⟩, true, true, 15⟩ := by
  refine ⟨fun h => by subst h; rfl, fun h => by subst h; rfl,
    fun str v h hne hp => ?_, fun str h hp => ?_, by simp [getNotificationSettings], rfl⟩
  · subst h
    simp [getNotificationSettings, hne, hp]
  · subst h
    by_cases hse : str = "" <;> simp [getNotificationSettings, hse, hp]

/-- C9: the trigger content generator is total and deterministic on
hours 0..23.  The title depends only on which of the fixed half-open
bands `[5,12)`, `[12,17)`, `[17,21)`, else night, contains the hour
(stated via canonical representatives 8, 14, 18 and 22 of the four
bands — the hour produces a given band's title exactly when it lies in
that band, so the dead fallback literal is never returned), and the
body is the fixed five-element list indexed by `hour % 5`, hence
periodic with period 5 and identical across runs. -/
theorem C9_content_generator_bands (hour : Nat) (h : hour < 24) :
    (getHourlyNotificationTitle hour = getHourlyNotificationTitle 8 ↔
      5 ≤ hour ∧ hour < 12) ∧
    (getHourlyNotificationTitle hour = getHourlyNotificationTitle 14 ↔
      12 ≤ hour ∧ hour < 17) ∧
    (getHourlyNotificationTitle hour = getHourlyNotificationTitle 18 ↔
      17 ≤ hour ∧ hour < 21) ∧
    (getHourlyNotificationTitle hour = getHourlyNotificationTitle 22 ↔
      21 ≤ hour ∨ hour < 5) ∧
    getHourlyNotificationBody hour =
      hourlyBodies.get ⟨hour % 5, Nat.mod_lt hour (by decide)⟩ ∧
    getHourlyNotificationBody (hour + 5) = getHourlyNotificationBody hour ∧
    hourlyBodies.length = 5 := by
  revert h
  revert hour
  decide

/-- Witness for C9 at hour 9: the morning band. -/
theorem C9_content_generator_bands_witness :
    (getHourlyNotificationTitle 9 = getHourlyNotificationTitle 8 ↔
      5 ≤ 9 ∧ 9 < 12) ∧
    (getHourlyNotificationTitle 9 = getHourlyNotificationTitle 14 ↔
      12 ≤ 9 ∧ 9 < 17) ∧
    (getHourlyNotificationTitle 9 = getHourlyNotificationTitle 18 ↔
      17 ≤ 9 ∧ 9 < 21) ∧
    (getHourlyNotificationTitle 9 = getHourlyNotificationTitle 22 ↔
      21 ≤ 9 ∨ 9 < 5) ∧
    getHourlyNotificationBody 9 =
      hourlyBodies.get ⟨9 % 5, Nat.mod_lt 9 (by decide)⟩ ∧
    getHourlyNotificationBody (9 + 5) = getHourlyNotificationBody 9 ∧
    hourlyBodies.length = 5 :=
  C9_content_generator_bands 9 (by decide)

theorem reversed_entries_cancel_nil (m : Nat) (hours : List Nat) :
    ((entriesOk allOk m hours).reverse).filter
      (fun e => !((List.range' m hours.length).contains e.id)) = [] := by
  refine List.filter_eq_nil_iff.mpr ?_
  intro e he
  have hb := entriesOk_id_bounds allOk m hours e (List.mem_reverse.mp he)
  simp [List.mem_range'_1]
  omega

theorem cancelHourly_own_generation (sched : List (String × Nat)) (m k : Nat)
    (hours : List Nat) :
    cancelHourlyNotifications
        ⟨sched, idsOk allOk m hours, k, (entriesOk allOk m hours).reverse⟩ =
      ⟨sched, [], k, []⟩ := by
  simp only [cancelHourlyNotifications]
  rw [idsOk_allOk, foldl_cancelExternal, reversed_entries_cancel_nil]

/-- C4: one scheduling pass is idempotent in its end state: for every
settings value and clock reading, running `scheduleAllNotifications`
twice in a row from the scheduler's start state with an
always-succeeding trigger registry leaves exactly the same logical
roles active after the second pass as after the first (the physical
ids shift, the role list does not). -/
theorem C4_apply_schedule_idempotent (cfg : NotificationSettings) (nowMinutes : Nat) :
    activeRoles (scheduleAllNotifications allOk cfg nowMinutes
      (scheduleAllNotifications allOk cfg nowMinutes initialState)) =
    activeRoles (scheduleAllNotifications allOk cfg nowMinutes initialState) := by
  rcases cfg with ⟨hEn, qh, mE, mT, eE, eT, wE, wD, wT, rE, aS, sD⟩
  cases hEn with
  | false =>
      cases mE <;> cases eE <;> cases wE <;>
        simp [scheduleAllNotifications, cancelAllScheduled_spec,
          scheduleMorningLog_allOk, scheduleEveningLog_allOk,
          scheduleWeeklyReview_allOk, mapSet, cancelExternal, activeRoles,
          initialState, List.filter_filter]
  | true =>
      have hRids : ∀ e ∈ (entriesOk allOk 0 (hourlyHours nowMinutes qh)).reverse,
          e.id < (hourlyHours nowMinutes qh).length := by
        intro e he
        have := entriesOk_id_bounds allOk 0 _ e (List.mem_reverse.mp he)
        omega
      cases wE with
      | false =>
          have h1 : scheduleAllNotifications allOk
              ⟨true, qh, mE, mT, eE, eT, false, wD, wT, rE, aS, sD⟩ nowMinutes
              initialState =
              ⟨[], idsOk allOk 0 (hourlyHours nowMinutes qh),
               (hourlyHours nowMinutes qh).length,
               (entriesOk allOk 0 (hourlyHours nowMinutes qh)).reverse⟩ := by
            rw [scheduleAll_hourly_from_init allOk _ nowMinutes rfl]
            simp
          rw [h1]
          have hca : cancelAllScheduled
              (⟨[], idsOk allOk 0 (hourlyHours nowMinutes qh),
                (hourlyHours nowMinutes qh).length,
                (entriesOk allOk 0 (hourlyHours nowMinutes qh)).reverse⟩ : SchedState) =
              ⟨[], idsOk allOk 0 (hourlyHours nowMinutes qh),
               (hourlyHours nowMinutes qh).length,
               (entriesOk allOk 0 (hourlyHours nowMinutes qh)).reverse⟩ := by
            rw [cancelAllScheduled_spec]
            simp
          have h2 : scheduleAllNotifications allOk
              ⟨true, qh, mE, mT, eE, eT, false, wD, wT, rE, aS, sD⟩ nowMinutes
              (⟨[], idsOk allOk 0 (hourlyHours nowMinutes qh),
                (hourlyHours nowMinutes qh).length,
                (entriesOk allOk 0 (hourlyHours nowMinutes qh)).reverse⟩ : SchedState) =
              ⟨[], idsOk allOk (hourlyHours nowMinutes qh).length
                 (hourlyHours nowMinutes qh),
               (hourlyHours nowMinutes qh).length + (hourlyHours nowMinutes qh).length,
               (entriesOk allOk (hourlyHours nowMinutes qh).length
                 (hourlyHours nowMinutes qh)).reverse⟩ := by
            simp only [scheduleAllNotifications, hca, scheduleHourlyNotifications,
              cancelHourly_own_generation, scheduleHourlyList_spec]
            simp
          rw [h2]
          simp only [activeRoles, List.map_reverse, entriesOk_allOk_map_role]
      | true =>
          have hfR : ((entriesOk allOk 0 (hourlyHours nowMinutes qh)).reverse).filter
              (fun e => !([(hourlyHours nowMinutes qh).length].contains e.id)) =
              (entriesOk allOk 0 (hourlyHours nowMinutes qh)).reverse :=
            List.filter_eq_self.mpr (fun e he => by
              have := hRids e he
              simp
              omega)
          have h1 : scheduleAllNotifications allOk
              ⟨true, qh, mE, mT, eE, eT, true, wD, wT, rE, aS, sD⟩ nowMinutes
              initialState =
              ⟨[(("weekly-review"), (hourlyHours nowMinutes qh).length)],
               idsOk allOk 0 (hourlyHours nowMinutes qh),
               (hourlyHours nowMinutes qh).length + 1,
               ⟨(hourlyHours nowMinutes qh).length, LogicalRole.weeklyReview,
                Trigger.weekly [wD] wT.hour wT.minute⟩ ::
                 (entriesOk allOk 0 (hourlyHours nowMinutes qh)).reverse⟩ := by
            rw [scheduleAll_hourly_from_init allOk _ nowMinutes rfl]
            rw [if_pos rfl, scheduleWeeklyReview_allOk]
            simp [mapSet]
          rw [h1]
          have hca : cancelAllScheduled
              (⟨[(("weekly-review"), (hourlyHours nowMinutes qh).length)],
                idsOk allOk 0 (hourlyHours nowMinutes qh),
                (hourlyHours nowMinutes qh).length + 1,
                ⟨(hourlyHours nowMinutes qh).length, LogicalRole.weeklyReview,
                 Trigger.weekly [wD] wT.hour wT.minute⟩ ::
                  (entriesOk allOk 0 (hourlyHours nowMinutes qh)).reverse⟩ : SchedState) =
              ⟨[], idsOk allOk 0 (hourlyHours nowMinutes qh),
               (hourlyHours nowMinutes qh).length + 1,
               (entriesOk allOk 0 (hourlyHours nowMinutes qh)).reverse⟩ := by
            rw [cancelAllScheduled_spec]
            simp only [List.map_cons, List.map_nil, List.filter_cons]
            simp [hfR]
            intro a ha
            have := entriesOk_id_bounds allOk 0 _ a ha
            omega
          have h2 : scheduleAllNotifications allOk
              ⟨true, qh, mE, mT, eE, eT, true, wD, wT, rE, aS, sD⟩ nowMinutes
              (⟨[(("weekly-review"), (hourlyHours nowMinutes qh).length)],
                idsOk allOk 0 (hourlyHours nowMinutes qh),
                (hourlyHours nowMinutes qh).length + 1,
                ⟨(hourlyHours nowMinutes qh).length, LogicalRole.weeklyReview,
                 Trigger.weekly [wD] wT.hour wT.minute⟩ ::
                  (entriesOk allOk 0 (hourlyHours nowMinutes qh)).reverse⟩ : SchedState) =
              ⟨[(("weekly-review"),
                 (hourlyHours nowMinutes qh).length + 1 + (hourlyHours nowMinutes qh).length)],
               idsOk allOk ((hourlyHours nowMinutes qh).length + 1)
                 (hourlyHours nowMinutes qh),
               (hourlyHours nowMinutes qh).length + 1 + (hourlyHours nowMinutes qh).length + 1,
               ⟨(hourlyHours nowMinutes qh).length + 1 + (hourlyHours nowMinutes qh).length,
                LogicalRole.weeklyReview, Trigger.weekly [wD] wT.hour wT.minute⟩ ::
                 (entriesOk allOk ((hourlyHours nowMinutes qh).length + 1)
                   (hourlyHours nowMinutes qh)).reverse⟩ := by
            simp only [scheduleAllNotifications, hca, scheduleHourlyNotifications,
              cancelHourly_own_generation, scheduleHourlyList_spec,
              scheduleWeeklyReview_allOk]
            simp [mapSet]
          rw [h2]
          simp only [activeRoles, List.map_cons, List.map_reverse,
            entriesOk_allOk_map_role]

/-- Witness for C10: nothing stored yields the default settings. -/
theorem C10_settings_load_witness :
    getNotificationSettings (StorageRead.ok none) (fun _ => none) =
      DEFAULT_NOTIFICATION_SETTINGS :=
  (C10_settings_load_total_with_defaults (StorageRead.ok none) (fun _ => none)).2.1 rfl

end LifeReveal
